import Mathlib

/-!
Verification development for the JEND peer-to-peer file transfer core.

This file gives a shallow embedding, in Lean 4, of the Go functions that the
specification's claims are about:

* the frame codec constants and header encoding (package `protocol`),
* the resumable download journal: `loadOrInitState`, `saveState`,
  `markChunkDone` and the chunk partition (internal/core/receiver_parallel.go),
* the parallel scheduler's worker receive loop and finalization
  (internal/core/receiver_parallel.go, `downloadParallel`),
* the sender's per-stream range transmission loop (`handleConnection`),
* the sequential receiver's resume/ack/rolling-digest logic and its
  finalization section (internal/core/receiver.go, `handleReceiveSession`),
* the PAKE mutual-authentication exchange (internal/core/pake.go,
  `PerformPAKE`), modelled symbolically for the cryptographic primitives.

File-system state (the persisted journal, the partial artifact) is made an
explicit value; streams are modelled as lists of events/frames; the
cryptographic primitives Argon2id and HMAC-SHA256 are modelled as free
constructors of a symbolic byte-string type, and a rolling SHA-256 digest is
modelled by the exact byte sequence fed to it (equal inputs give equal
digests, distinct hash values require distinct inputs).
-/

namespace JEND

/-! ## Frame codec (package protocol)

Wire constants from the protocol package.  The header is one `kind` byte
followed by a 4-byte little-endian length; bytes are modelled by `Nat`
values below 256. -/

def TypePAKE : Nat := 0
def TypeHandshake : Nat := 1
def TypeData : Nat := 2
def TypeAck : Nat := 3
def TypeErrorF : Nat := 4
def TypeCancel : Nat := 5
def TypeRangeReq : Nat := 6

/-- Little-endian 4-byte encoding of a `u32` value, as in `binary.Write`
with `binary.LittleEndian` on a `uint32`. -/
def le32 (n : Nat) : List Nat :=
  [n % 256, n / 256 % 256, n / 256 ^ 2 % 256, n / 256 ^ 3 % 256]

/-- Little-endian 8-byte encoding of an unsigned 64-bit value. -/
def le64 (n : Nat) : List Nat :=
  [n % 256, n / 256 % 256, n / 256 ^ 2 % 256, n / 256 ^ 3 % 256,
   n / 256 ^ 4 % 256, n / 256 ^ 5 % 256, n / 256 ^ 6 % 256, n / 256 ^ 7 % 256]

/-- Little-endian 8-byte two's-complement encoding of a Go `int64`, as
produced by `binary.Write(w, binary.LittleEndian, offset)`. -/
def le64Int (o : Int) : List Nat :=
  le64 ((o % (2 ^ 64 : Int)).toNat)

/-- `protocol.EncodeHeader`: one `kind` byte, then the payload length as a
4-byte little-endian `u32`. -/
def encodeHeader (pType : Nat) (length : Nat) : List Nat :=
  pType :: le32 length

/-! ## Download journal (receiver_parallel.go)

`Chunk` and `DownloadState` mirror the Go structs.  Sizes and offsets are
Go `int64` values, modelled as `Int`; chunk ids are the loop indices
`0 .. chunks-1`, modelled as `Nat`. -/

structure Chunk where
  ID : Nat
  Start : Int
  Length : Int
  Done : Bool
deriving DecidableEq, Repr

structure DownloadState where
  TotalSize : Int
  Chunks : List Chunk
deriving DecidableEq, Repr

/-- The chunk-partition loop in `loadOrInitState`:
`chunkSize := totalSize / int64(chunks)`; chunk `i` starts at
`i*chunkSize` with length `chunkSize`, except the last chunk whose length
is `totalSize - start`. -/
def initChunks (totalSize : Int) (chunks : Nat) : List Chunk :=
  let chunkSize := totalSize / (chunks : Int)
  (List.range chunks).map (fun (i : Nat) =>
    let start := (i : Int) * chunkSize
    let length := if i = chunks - 1 then totalSize - start else chunkSize
    { ID := i, Start := start, Length := length, Done := false })

/-- `loadOrInitState(metaPath, totalSize, chunks)`.  The on-disk journal is
modelled as `existing : Option DownloadState` (`none` when the file is
missing, unreadable, or fails to parse).  The returned `Bool` records
whether `saveState` was called (i.e. the journal was (re)persisted now):
a loaded journal whose `TotalSize` matches is returned unchanged without a
write; otherwise a fresh partition is built and persisted immediately. -/
def loadOrInitState (existing : Option DownloadState) (totalSize : Int)
    (chunks : Nat) : DownloadState × Bool :=
  match existing with
  | some st =>
    if st.TotalSize = totalSize then (st, false)
    else ({ TotalSize := totalSize, Chunks := initChunks totalSize chunks }, true)
  | none => ({ TotalSize := totalSize, Chunks := initChunks totalSize chunks }, true)

/-- The in-place update `state.Chunks[id].Done = true` on a Go slice. -/
def setChunkDone : List Chunk → Nat → List Chunk
  | [], _ => []
  | c :: cs, 0 => { c with Done := true } :: cs
  | c :: cs, n + 1 => c :: setChunkDone cs n

/-- `markChunkDone(path, id)`: re-read the journal from disk; on a read (or
parse) failure return without writing; if `id < len(state.Chunks)` set
`Chunks[id].Done = true` and `saveState`, otherwise do not write.  The
argument is the current on-disk journal and the result is the on-disk
journal after the call. -/
def markChunkDone (disk : Option DownloadState) (id : Nat) : Option DownloadState :=
  match disk with
  | none => none
  | some st =>
    if id < st.Chunks.length then
      some { st with Chunks := setChunkDone st.Chunks id }
    else
      some st

/-- The concurrency-adoption step at the top of `downloadParallel`:
`if len(state.Chunks) != concurrency && len(state.Chunks) > 0 then
concurrency = len(state.Chunks)`. -/
def adoptedConcurrency (stateChunks requested : Nat) : Nat :=
  if stateChunks ≠ requested ∧ 0 < stateChunks then stateChunks else requested

/-! ## Parallel worker and scheduler finalization (receiver_parallel.go)

A worker's stream is modelled as the list of events its `DecodeHeader`
loop observes: complete frames, or a read error that is not `io.EOF`
(`readErr`); exhausting the list is a clean EOF. -/

inductive StreamEvent where
  | frame (ptype : Nat) (payload : List Nat)
  | readErr
deriving DecidableEq, Repr

/-- The worker receive loop of `downloadParallel`: a `Data` frame's payload
is written at the chunk offset and added to `receivedLocal`; a non-EOF
read error sends to `errChan` and returns; EOF or any non-`Data` frame
breaks out of the loop.  Result: (sent-to-errChan, receivedLocal). -/
def workerRecvLoop : List StreamEvent → Int → Bool × Int
  | [], acc => (false, acc)
  | .readErr :: _, acc => (true, acc)
  | .frame t p :: rest, acc =>
    if t = TypeData then workerRecvLoop rest (acc + p.length) else (false, acc)

structure WorkerRun where
  pushedErr : Bool
  receivedLocal : Int
  markedDone : Bool
deriving DecidableEq, Repr

/-- One worker of `downloadParallel` for a chunk of the given length:
after the receive loop, `markChunkDone` is called iff the loop returned
without an error and `receivedLocal == length`. -/
def runWorker (length : Int) (events : List StreamEvent) : WorkerRun :=
  let r := workerRecvLoop events 0
  { pushedErr := r.1, receivedLocal := r.2,
    markedDone := !r.1 && (r.2 == length) }

/-- The journal write performed by a worker: `markChunkDone(metaPath, id)`
runs only when the worker completed its exact length. -/
def journalAfterWorker (disk : Option DownloadState) (id : Nat)
    (w : WorkerRun) : Option DownloadState :=
  if w.markedDone then markChunkDone disk id else disk

structure ParallelFinish where
  success : Bool
  renamedToFinal : Bool
  journalDeleted : Bool
  reportedHash : String
deriving DecidableEq, Repr

/-- The tail of `downloadParallel` after `wg.Wait()` (lines 217-231): if any
worker pushed to `errChan` the first error is returned (no rename); else
`os.Rename(parallelPath, finalPath)`, `os.Remove(metaPath)` and
`return true, meta.Size, meta.Hash, nil`.  Note that neither the artifact
bytes nor the journal's `Done` flags are consulted. -/
def downloadParallelFinish (workers : List WorkerRun) (metaHash : String) :
    ParallelFinish :=
  if workers.any (·.pushedErr) then
    { success := false, renamedToFinal := false, journalDeleted := false,
      reportedHash := "" }
  else
    { success := true, renamedToFinal := true, journalDeleted := true,
      reportedHash := metaHash }

/-! ## Sender per-stream range transmission (handleConnection)

The payload source is a seekable byte list; `file.Read` on an `os.File`
at position `pos` with a buffer of `readSize` bytes returns
`min readSize (size - pos)` bytes, and `(0, io.EOF)` at end of file. -/

def ChunkSize : Nat := 1024 * 64

/-- The `Data`-frame loop of `handleConnection` in the ranged case
(`bytesRemaining = byteLimit > 0`): each iteration reads up to
`min ChunkSize bytesRemaining` bytes at the current position, emits them
as one `Data` frame payload, and stops when `bytesRemaining` reaches 0 or
the read hits EOF. -/
def senderRangeFrames (src : List Nat) (pos rem : Nat) : List (List Nat) :=
  if _hrem : rem = 0 then []
  else if _hn : min (min ChunkSize rem) (src.length - pos) = 0 then []
  else
    (src.drop pos).take (min (min ChunkSize rem) (src.length - pos)) ::
      senderRangeFrames src (pos + min (min ChunkSize rem) (src.length - pos))
        (rem - min (min ChunkSize rem) (src.length - pos))
termination_by rem
decreasing_by omega

/-- The `Data`-frame loop of `handleConnection` when `bytesRemaining = -1`
(`Ack` path): read `ChunkSize` bytes at a time until EOF. -/
def senderToEOF (src : List Nat) (pos : Nat) : List (List Nat) :=
  if _hn : min ChunkSize (src.length - pos) = 0 then []
  else
    (src.drop pos).take (min ChunkSize (src.length - pos)) ::
      senderToEOF src (pos + min ChunkSize (src.length - pos))
termination_by src.length - pos
decreasing_by simp only [ChunkSize] at *; omega

/-- `handleConnection` after parsing a response frame carrying
`startOff`/`lenReq` (`RangeReq`): seek to `startOff`; `byteLimit :=
lenReq`; `bytesRemaining` is set to `byteLimit` when positive and stays
`-1` otherwise. -/
def handleRangeRequest (src : List Nat) (startOff lenReq : Int) :
    List (List Nat) :=
  if lenReq > 0 then senderRangeFrames src startOff.toNat lenReq.toNat
  else senderToEOF src startOff.toNat

/-! ## Sequential receiver: resume offset, Ack frame, rolling digest
(receiver.go, handleReceiveSession) -/

/-- The resume-offset computation: for a non-text payload, if a
`.partial` file exists whose size is strictly between 0 and `meta.Size`,
the offset is that size; otherwise 0.  The partial file is modelled by
its byte contents (`none` when `os.Stat` fails). -/
def resumeOffset (metaType : String) (metaSize : Int)
    (partFile : Option (List Nat)) : Int :=
  match partFile with
  | some p =>
    if metaType ≠ "text" ∧ (p.length : Int) < metaSize ∧ 0 < (p.length : Int)
    then (p.length : Int) else 0
  | none => 0

/-- The `Ack` frame the sequential receiver sends: header of kind
`TypeAck` with length 8, followed by the offset as a little-endian
`int64`. -/
def ackFrameBytes (offset : Int) : List Nat :=
  encodeHeader TypeAck 8 ++ le64Int offset

/-- The byte sequence fed to the rolling SHA-256 digest of the sequential
receiver: when resuming (`offset > 0`) the first `offset` bytes of the
existing partial file are hashed first (`io.CopyN(hasher, existingFile,
offset)`), then every received `Data` payload is hashed through the
`MultiWriter`. -/
def sequentialHashedBytes (part : List Nat) (offset : Nat)
    (dataPayloads : List (List Nat)) : List Nat :=
  part.take offset ++ dataPayloads.flatten

structure SeqFinalize where
  success : Bool
  integrityChecked : Bool
  integrityFailed : Bool
  renamedToFinal : Bool
  usedCollisionSuffix : Bool
deriving DecidableEq, Repr

/-- The checksum-verification and finalization section of
`handleReceiveSession` (receiver.go lines 403-460).  `recvHash` is the
hex digest the receiver computed; `finalPathTaken` tells whether the
destination name already exists (driving the collision-avoiding suffix
loop, which runs only in the hash-present branch). -/
def sequentialFinalize (metaHash metaType recvHash : String)
    (finalPathTaken : Bool) : SeqFinalize :=
  if metaHash ≠ "" then
    if recvHash = metaHash then
      if metaType = "text" then
        { success := true, integrityChecked := true, integrityFailed := false,
          renamedToFinal := false, usedCollisionSuffix := false }
      else
        { success := true, integrityChecked := true, integrityFailed := false,
          renamedToFinal := true, usedCollisionSuffix := finalPathTaken }
    else
      { success := false, integrityChecked := true, integrityFailed := true,
        renamedToFinal := false, usedCollisionSuffix := false }
  else
    if metaType = "text" then
      { success := true, integrityChecked := false, integrityFailed := false,
        renamedToFinal := false, usedCollisionSuffix := false }
    else
      { success := true, integrityChecked := false, integrityFailed := false,
        renamedToFinal := true, usedCollisionSuffix := false }

/-! ## PAKE (pake.go), modelled symbolically

Byte strings handled by the PAKE exchange are terms of a free symbolic
algebra: `argon2id` and `hmacSHA256` are free constructors, so two
applications are equal exactly when their arguments are (the standard
symbolic idealization of collision-resistant primitives). -/

inductive SymBytes where
  | lit (s : String)
  | codeStr (s : String)
  | saltV (n : Nat)
  | nonceV (n : Nat)
  | cat (a b : SymBytes)
  | argon2id (password saltArg : SymBytes)
  | hmacSHA256 (key data : SymBytes)
deriving DecidableEq, Repr

inductive PAKEOutcome where
  | ok
  | wrongCode
  | peerAuthFailed
deriving DecidableEq, Repr

structure PAKEJointRun where
  verifierResult : PAKEOutcome
  proverResult : Option PAKEOutcome
  verifierSentKinds : List Nat
deriving DecidableEq, Repr

/-- One joint execution of `PerformPAKE` with the Verifier (role 0,
sender, code `codeV`) and the Prover (role 1, receiver, code `codeP`)
wired across one stream; `saltId`/`nonceId` identify the Verifier's
random 16-byte salt and 32-byte nonce.  Message schedule, as in pake.go:
Hello (P to V), Salt (V to P), both derive
`K = Argon2id(code, salt)`, Nonce (V to P), ProverTag =
`HMAC(K_P, "client" concat nonce)` checked by V in constant time
(mismatch: V returns "authentication failed: wrong password" and sends
nothing more, so P gets no further frame and no result), VerifierTag =
`HMAC(K_V, "server" concat nonce)` checked by P (mismatch:
"server authentication failed").  `verifierSentKinds` lists the kinds of
the frames the Verifier writes to the stream, in order. -/
def performPAKEJoint (codeV codeP : String) (saltId nonceId : Nat) :
    PAKEJointRun :=
  let kV := SymBytes.argon2id (.codeStr codeV) (.saltV saltId)
  let kP := SymBytes.argon2id (.codeStr codeP) (.saltV saltId)
  let proverTag := SymBytes.hmacSHA256 kP (.cat (.lit "client") (.nonceV nonceId))
  let expectedProverTag :=
    SymBytes.hmacSHA256 kV (.cat (.lit "client") (.nonceV nonceId))
  if proverTag = expectedProverTag then
    let verifierTag :=
      SymBytes.hmacSHA256 kV (.cat (.lit "server") (.nonceV nonceId))
    let expectedVerifierTag :=
      SymBytes.hmacSHA256 kP (.cat (.lit "server") (.nonceV nonceId))
    if verifierTag = expectedVerifierTag then
      { verifierResult := .ok, proverResult := some .ok,
        verifierSentKinds := [TypePAKE, TypePAKE, TypePAKE] }
    else
      { verifierResult := .ok, proverResult := some .peerAuthFailed,
        verifierSentKinds := [TypePAKE, TypePAKE, TypePAKE] }
  else
    { verifierResult := .wrongCode, proverResult := none,
      verifierSentKinds := [TypePAKE, TypePAKE] }

/-- The frame kinds the sender writes on a stream around PAKE: the
sender-side caller (`handleConnection`) emits its `Handshake` frame only
after `PerformPAKE` returns without error. -/
def verifierStreamKinds (codeV codeP : String) (saltId nonceId : Nat) :
    List Nat :=
  let run := performPAKEJoint codeV codeP saltId nonceId
  run.verifierSentKinds ++
    (if run.verifierResult = .ok then [TypeHandshake] else [])

/-! ## Sender stream-accept loop (parallel sender, handleConnection with
skipAuth) -/

/-- The stream-accept loop of the parallel `RunSender`: for each accepted
stream, `isFirst := streamID == 0` and `handleConnection` is invoked with
`skipAuth = !first`. -/
def senderSkipAuth (streamID : Nat) : Bool := streamID != 0

/-- The frame kinds the parallel sender's `handleConnection` writes on a
stream before reading the receiver's `Ack`/`RangeReq` response: when
`skipAuth` is false it runs `PerformPAKE` as Verifier (writing the Salt,
Nonce and VerifierTag `Pake` frames on the successful path) and then the
`Handshake`; when `skipAuth` is true the PAKE block is skipped entirely
and the `Handshake` is the first frame written. -/
def senderPreResponseKinds (skipAuth : Bool) : List Nat :=
  (if skipAuth then [] else [TypePAKE, TypePAKE, TypePAKE]) ++ [TypeHandshake]

/-- The frame kinds a parallel worker of `downloadParallel` writes on the
fresh stream it opens: the PAKE Hello and ProverTag `Pake` frames
(`PerformPAKE` with role 1), then its `RangeReq`. -/
def receiverWorkerSentKinds : List Nat := [TypePAKE, TypePAKE, TypeRangeReq]

/-! ## Helper lemmas about the journal update -/

theorem setChunkDone_length : ∀ (l : List Chunk) (id : Nat),
    (setChunkDone l id).length = l.length
  | [], _ => rfl
  | _ :: cs, 0 => by simp [setChunkDone]
  | _ :: cs, n + 1 => by simp [setChunkDone, setChunkDone_length cs n]

theorem setChunkDone_getElem_ne : ∀ (l : List Chunk) (id j : Nat), j ≠ id →
    (setChunkDone l id)[j]? = l[j]?
  | [], _, _, _ => by simp [setChunkDone]
  | c :: cs, 0, j, hj => by
    match j with
    | 0 => exact absurd rfl hj
    | k + 1 => simp [setChunkDone]
  | c :: cs, n + 1, j, hj => by
    match j with
    | 0 => simp [setChunkDone]
    | k + 1 =>
      simp only [setChunkDone, List.getElem?_cons_succ]
      exact setChunkDone_getElem_ne cs n k (by omega)

theorem setChunkDone_getElem_eq : ∀ (l : List Chunk) (id : Nat) (c : Chunk),
    l[id]? = some c → (setChunkDone l id)[id]? = some { c with Done := true }
  | [], id, c, h => by simp at h
  | a :: cs, 0, c, h => by
    simp only [List.getElem?_cons_zero, Option.some.injEq] at h
    simp [setChunkDone, h]
  | a :: cs, n + 1, c, h => by
    simp only [List.getElem?_cons_succ] at h
    simpa [setChunkDone] using setChunkDone_getElem_eq cs n c h

/-! ## Claim theorems -/

/-- Claim C9: `markChunkDone(id)` with `id < len(Chunks)` re-reads the
journal, sets `Chunks[id].Done` to true and rewrites it, leaving
`TotalSize` and every other chunk's fields unchanged, and preserving the
`ID`, `Start` and `Length` of chunk `id` itself; with an out-of-range
`id` (or an unreadable journal) the persisted journal is unchanged. -/
theorem markChunkDone_spec (st : DownloadState) (id : Nat) :
    (id < st.Chunks.length →
      markChunkDone (some st) id
          = some { TotalSize := st.TotalSize, Chunks := setChunkDone st.Chunks id } ∧
      (setChunkDone st.Chunks id).length = st.Chunks.length ∧
      (∀ j, j ≠ id → (setChunkDone st.Chunks id)[j]? = st.Chunks[j]?) ∧
      (∀ c, st.Chunks[id]? = some c →
        (setChunkDone st.Chunks id)[id]? = some { c with Done := true })) ∧
    (st.Chunks.length ≤ id → markChunkDone (some st) id = some st) ∧
    markChunkDone none id = none := by
  refine ⟨fun h => ⟨?_, setChunkDone_length _ _,
      fun j hj => setChunkDone_getElem_ne _ _ _ hj,
      fun c hc => setChunkDone_getElem_eq _ _ _ hc⟩, fun h => ?_, rfl⟩
  · simp [markChunkDone, h]
  · simp [markChunkDone, Nat.not_lt_of_le h]

/-- Witness for C9 at a concrete journal: marking chunk 1 of a two-chunk
journal flips only its `Done` flag and persists; id 5 is out of range and
leaves the journal untouched. -/
theorem markChunkDone_spec_witness :
    markChunkDone (some ⟨10, [⟨0, 0, 5, false⟩, ⟨1, 5, 5, false⟩]⟩) 1
        = some ⟨10, [⟨0, 0, 5, false⟩, ⟨1, 5, 5, true⟩]⟩ ∧
    markChunkDone (some ⟨10, [⟨0, 0, 5, false⟩, ⟨1, 5, 5, false⟩]⟩) 5
        = some ⟨10, [⟨0, 0, 5, false⟩, ⟨1, 5, 5, false⟩]⟩ := by
  have h1 := (markChunkDone_spec ⟨10, [⟨0, 0, 5, false⟩, ⟨1, 5, 5, false⟩]⟩ 1).1
    (by decide)
  have h2 := (markChunkDone_spec ⟨10, [⟨0, 0, 5, false⟩, ⟨1, 5, 5, false⟩]⟩ 5).2.1
    (by decide)
  exact ⟨h1.1.trans (by decide), h2⟩

/-- Claim C7: when a journal for the same artifact exists and its
`TotalSize` matches the metadata size, `loadOrInitState` returns the
persisted layout unchanged (for every requested worker count, so no
repartition ever happens on resume), and the scheduler adopts the
persisted chunk count whenever it is positive, regardless of the
requested concurrency. -/
theorem loadOrInitState_resume_keeps_layout (st : DownloadState)
    (requested requested2 : Nat) :
    loadOrInitState (some st) st.TotalSize requested = (st, false) ∧
    loadOrInitState (some st) st.TotalSize requested2
        = loadOrInitState (some st) st.TotalSize requested ∧
    (0 < st.Chunks.length →
      adoptedConcurrency st.Chunks.length requested = st.Chunks.length) := by
  refine ⟨by simp [loadOrInitState], by simp [loadOrInitState], fun hpos => ?_⟩
  by_cases h : st.Chunks.length = requested
  · simp [adoptedConcurrency, h]
  · simp [adoptedConcurrency, h, hpos]

/-- Witness for C7: a persisted 3-chunk journal of total size 100 is
returned as-is when 8 workers are requested, and the adopted concurrency
is 3. -/
theorem loadOrInitState_resume_keeps_layout_witness :
    loadOrInitState (some ⟨100, [⟨0, 0, 33, true⟩, ⟨1, 33, 33, false⟩,
        ⟨2, 66, 34, false⟩]⟩) 100 8
      = (⟨100, [⟨0, 0, 33, true⟩, ⟨1, 33, 33, false⟩, ⟨2, 66, 34, false⟩]⟩,
        false) ∧
    adoptedConcurrency 3 8 = 3 := by
  have h := loadOrInitState_resume_keeps_layout
    ⟨100, [⟨0, 0, 33, true⟩, ⟨1, 33, 33, false⟩, ⟨2, 66, 34, false⟩]⟩ 8 4
  exact ⟨h.1, h.2.2 (by decide)⟩

/-- Claim C10: when the Handshake metadata's hash field is empty, the
sequential receiver performs no integrity check at all: whatever digest
the received payload has, it renames the partial file to the original
final path (no collision-avoiding suffix) and reports success. -/
theorem sequentialFinalize_no_hash_skips_verification (recvHash : String)
    (finalPathTaken : Bool) :
    sequentialFinalize "" "file" recvHash finalPathTaken
      = { success := true, integrityChecked := false, integrityFailed := false,
          renamedToFinal := true, usedCollisionSuffix := false } := by
  simp [sequentialFinalize]

/-- Claim C5 (code divergence): a worker whose stream ends with a
non-`Data` frame (for example `Cancel`) before its range is complete
pushes no error and leaves its chunk `Done = false`, yet the scheduler's
finalization still renames the partial artifact to the final path,
deletes the journal, and reports success — it never checks the `Done`
flags, only `errChan`. -/
theorem downloadParallel_incomplete_range_reports_success :
    (runWorker 10 [StreamEvent.frame TypeCancel []]).pushedErr = false ∧
    (runWorker 10 [StreamEvent.frame TypeCancel []]).receivedLocal = 0 ∧
    (runWorker 10 [StreamEvent.frame TypeCancel []]).markedDone = false ∧
    journalAfterWorker (some ⟨10, [⟨0, 0, 10, false⟩]⟩) 0
        (runWorker 10 [StreamEvent.frame TypeCancel []])
      = some ⟨10, [⟨0, 0, 10, false⟩]⟩ ∧
    downloadParallelFinish [runWorker 10 [StreamEvent.frame TypeCancel []]] "d"
      = { success := true, renamedToFinal := true, journalDeleted := true,
          reportedHash := "d" } := by
  decide

/-- Claim C4 (code divergence): the parallel sender's stream-accept loop
passes `skipAuth = !isFirst`, so on every stream after the first
(`streamID >= 1`) the PAKE block is skipped and the very first frame the
sender writes is the `Handshake` — no `Pake` frame at all — while the
receiver's parallel workers run `PerformPAKE` first on each stream they
open.  PAKE is therefore per-connection on the sender side, not
per-stream. -/
theorem sender_worker_streams_skip_pake :
    senderSkipAuth 0 = false ∧
    senderSkipAuth 1 = true ∧
    senderPreResponseKinds (senderSkipAuth 1) = [TypeHandshake] ∧
    TypePAKE ∉ senderPreResponseKinds (senderSkipAuth 1) ∧
    (senderPreResponseKinds (senderSkipAuth 1)).head? = some TypeHandshake ∧
    senderPreResponseKinds (senderSkipAuth 0)
      = [TypePAKE, TypePAKE, TypePAKE, TypeHandshake] ∧
    receiverWorkerSentKinds.head? = some TypePAKE := by
  decide

/-- Claim C1 (code divergence): the finalization of `downloadParallel`
does not re-hash the finalized artifact: with an empty `errChan` it
renames the partial file and reports success with `meta.Hash`, for every
artifact content — in particular when the artifact's SHA-256 digest
(`hashHex artifact`, for any digest function) differs from the metadata
digest, so no `IntegrityFailed` is ever produced in parallel mode. -/
theorem downloadParallelFinish_ignores_digest (hashHex : List Nat → String)
    (artifact : List Nat) (metaHash : String) (workers : List WorkerRun)
    (hnoerr : workers.any (·.pushedErr) = false)
    (_hmismatch : hashHex artifact ≠ metaHash) :
    (downloadParallelFinish workers metaHash).success = true ∧
    (downloadParallelFinish workers metaHash).renamedToFinal = true ∧
    (downloadParallelFinish workers metaHash).journalDeleted = true ∧
    (downloadParallelFinish workers metaHash).reportedHash = metaHash := by
  simp [downloadParallelFinish, hnoerr]

/-- Witness for C1: an artifact hashing to "00" against metadata digest
"ff", with all workers error-free, is still renamed and reported as a
success. -/
theorem downloadParallelFinish_ignores_digest_witness :
    (downloadParallelFinish [runWorker 1 [StreamEvent.frame TypeData [7]]]
        "ff").success = true ∧
    (downloadParallelFinish [runWorker 1 [StreamEvent.frame TypeData [7]]]
        "ff").renamedToFinal = true := by
  have h := downloadParallelFinish_ignores_digest (fun _ => "00") [1, 2, 3]
    "ff" [runWorker 1 [StreamEvent.frame TypeData [7]]] (by decide) (by decide)
  exact ⟨h.1, h.2.1⟩

/-- Claim C3: with matching codes both `PerformPAKE` sides succeed; with
differing codes the Verifier's constant-time tag comparison fails, it
returns the wrong-password error before writing its own tag, and —
because `handleConnection` sends the `Handshake` only after `PerformPAKE`
succeeds — the Prover (the wrong-code side) never observes a `Handshake`
frame before the failure. -/
theorem performPAKEJoint_auth (codeV codeP : String) (saltId nonceId : Nat) :
    (codeV = codeP →
      (performPAKEJoint codeV codeP saltId nonceId).verifierResult
          = PAKEOutcome.ok ∧
      (performPAKEJoint codeV codeP saltId nonceId).proverResult
          = some PAKEOutcome.ok) ∧
    (codeV ≠ codeP →
      (performPAKEJoint codeV codeP saltId nonceId).verifierResult
          = PAKEOutcome.wrongCode ∧
      (performPAKEJoint codeV codeP saltId nonceId).proverResult ≠ some .ok ∧
      TypeHandshake ∉ verifierStreamKinds codeV codeP saltId nonceId) := by
  constructor
  · intro heq
    subst heq
    simp [performPAKEJoint]
  · intro hne
    have htag :
        SymBytes.hmacSHA256
            (.argon2id (.codeStr codeP) (.saltV saltId))
            (.cat (.lit "client") (.nonceV nonceId))
          ≠ SymBytes.hmacSHA256
            (.argon2id (.codeStr codeV) (.saltV saltId))
            (.cat (.lit "client") (.nonceV nonceId)) := by
      simp [SymBytes.hmacSHA256.injEq, SymBytes.argon2id.injEq,
        SymBytes.codeStr.injEq]
      intro h
      exact hne h.symm
    refine ⟨?_, ?_, ?_⟩ <;>
      simp [performPAKEJoint, verifierStreamKinds, htag, TypeHandshake,
        TypePAKE]

/-- Witness for C3: with the same code "alpha" on both sides the exchange
completes; with codes "alpha" and "bravo" the Verifier reports the wrong
code and the sender writes no `Handshake` frame on that stream. -/
theorem performPAKEJoint_auth_witness :
    (performPAKEJoint "alpha" "alpha" 0 1).verifierResult = PAKEOutcome.ok ∧
    (performPAKEJoint "alpha" "bravo" 0 1).verifierResult
        = PAKEOutcome.wrongCode ∧
    TypeHandshake ∉ verifierStreamKinds "alpha" "bravo" 0 1 := by
  have h1 := (performPAKEJoint_auth "alpha" "alpha" 0 1).1 rfl
  have h2 := (performPAKEJoint_auth "alpha" "bravo" 0 1).2 (by decide)
  exact ⟨h1.1, h2.1, h2.2.2⟩

/-- Concatenating the `Data` payloads of the ranged sender loop yields
exactly the `rem` source bytes from position `pos`, provided the range
lies within the source. -/
theorem senderRangeFrames_flatten (src : List Nat) :
    ∀ rem pos, pos + rem ≤ src.length →
      (senderRangeFrames src pos rem).flatten = (src.drop pos).take rem := by
  intro rem
  induction rem using Nat.strong_induction_on with
  | _ rem ih =>
    intro pos hle
    by_cases hrem : rem = 0
    · subst hrem
      rw [senderRangeFrames]
      simp
    · have hc : ChunkSize = 65536 := rfl
      have hn : ¬ min (min ChunkSize rem) (src.length - pos) = 0 := by
        rw [hc]; omega
      rw [senderRangeFrames, dif_neg hrem, dif_neg hn]
      have hnpos : 0 < min (min ChunkSize rem) (src.length - pos) := by
        omega
      rw [List.flatten_cons,
        ih (rem - min (min ChunkSize rem) (src.length - pos)) (by omega)
          (pos + min (min ChunkSize rem) (src.length - pos)) (by omega)]
      rw [← List.drop_drop]
      have hnr : min (min ChunkSize rem) (src.length - pos) ≤ rem := by
        omega
      conv_rhs => rw [show rem = min (min ChunkSize rem) (src.length - pos)
        + (rem - min (min ChunkSize rem) (src.length - pos)) by omega]
      rw [List.take_add]

/-- Claim C2: for every sender stream that after the handshake receives
`RangeReq(startOff, lenReq)` with `0 <= startOff`, `0 < lenReq` and
`startOff + lenReq <= size` over a seekable source, the concatenation of
the `Data`-frame payloads it emits equals exactly the source bytes of the
half-open interval from `startOff` to `startOff + lenReq` — exactly
`lenReq` bytes. -/
theorem handleRangeRequest_exact (src : List Nat) (startOff lenReq : Int)
    (h0 : 0 ≤ startOff) (h1 : 0 < lenReq)
    (h2 : startOff + lenReq ≤ (src.length : Int)) :
    (handleRangeRequest src startOff lenReq).flatten
        = (src.drop startOff.toNat).take lenReq.toNat ∧
    ((handleRangeRequest src startOff lenReq).flatten).length
        = lenReq.toNat := by
  have hb : startOff.toNat + lenReq.toNat ≤ src.length := by omega
  have hflat : (handleRangeRequest src startOff lenReq).flatten
      = (src.drop startOff.toNat).take lenReq.toNat := by
    unfold handleRangeRequest
    rw [if_pos h1]
    exact senderRangeFrames_flatten src lenReq.toNat startOff.toNat hb
  refine ⟨hflat, ?_⟩
  rw [hflat]
  simp only [List.length_take, List.length_drop]
  omega

/-- Witness for C2: a `RangeReq` for bytes 1..3 of a five-byte source
delivers exactly those three bytes. -/
theorem handleRangeRequest_exact_witness :
    (handleRangeRequest [10, 20, 30, 40, 50] 1 3).flatten = [20, 30, 40] := by
  have h := handleRangeRequest_exact [10, 20, 30, 40, 50] 1 3
    (by decide) (by decide) (by decide)
  exact h.1.trans (by decide)

/-- Closed form of the chunk built at index `i` by the partition loop of
`loadOrInitState`. -/
theorem initChunks_getElem (S : Int) (N i : Nat) (h : i < N) :
    (initChunks S N)[i]? = some
      { ID := i, Start := (i : Int) * (S / (N : Int)),
        Length := if i = N - 1 then S - (i : Int) * (S / (N : Int))
          else S / (N : Int),
        Done := false } := by
  simp [initChunks, h]

/-- Claim C6: a fresh journal (no existing journal on disk) for total
size `S > 0` and worker count `N >= 1` is persisted immediately, has
`TotalSize = S`, and its `N` chunks are ordered by id `0..N-1`, all
not-done with non-negative lengths, starting at 0, contiguous (each chunk
starts where the previous one ends, hence non-overlapping), and ending
exactly at `S` (the last chunk absorbs the division remainder). -/
theorem loadOrInitState_fresh_partition (S : Int) (N : Nat)
    (hS : 0 < S) (hN : 1 ≤ N) :
    (loadOrInitState none S N).2 = true ∧
    (loadOrInitState none S N).1.TotalSize = S ∧
    (loadOrInitState none S N).1.Chunks.length = N ∧
    (∀ i, i < N → (loadOrInitState none S N).1.Chunks[i]? = some
      { ID := i, Start := (i : Int) * (S / (N : Int)),
        Length := if i = N - 1 then S - (i : Int) * (S / (N : Int))
          else S / (N : Int),
        Done := false }) ∧
    (∀ i ci, i < N → (loadOrInitState none S N).1.Chunks[i]? = some ci →
      ci.ID = i ∧ ci.Done = false ∧ 0 ≤ ci.Length) ∧
    (∀ c0, (loadOrInitState none S N).1.Chunks[0]? = some c0 →
      c0.Start = 0) ∧
    (∀ i ci cj, i + 1 < N →
      (loadOrInitState none S N).1.Chunks[i]? = some ci →
      (loadOrInitState none S N).1.Chunks[i + 1]? = some cj →
      cj.Start = ci.Start + ci.Length) ∧
    (∀ cl, (loadOrInitState none S N).1.Chunks[N - 1]? = some cl →
      cl.Start + cl.Length = S) := by
  have hch : (loadOrInitState none S N).1.Chunks = initChunks S N := rfl
  have hN0 : (N : Int) ≠ 0 := Int.natCast_ne_zero.mpr (by omega)
  have hc0 : 0 ≤ S / (N : Int) := Int.ediv_nonneg hS.le (by positivity)
  have hdm := Int.ediv_add_emod S (N : Int)
  have hmod : 0 ≤ S % (N : Int) := Int.emod_nonneg S hN0
  have hNc : (N : Int) * (S / (N : Int)) ≤ S := by linarith
  have hcast : ((N - 1 : Nat) : Int) = (N : Int) - 1 := by
    push_cast [Nat.cast_sub hN]
    ring
  have hlastnn : 0 ≤ S - ((N - 1 : Nat) : Int) * (S / (N : Int)) := by
    rw [hcast]
    have h2 : ((N : Int) - 1) * (S / (N : Int))
        ≤ (N : Int) * (S / (N : Int)) :=
      mul_le_mul_of_nonneg_right (by linarith) hc0
    linarith
  refine ⟨rfl, rfl, ?_, ?_, ?_, ?_, ?_, ?_⟩
  · rw [hch]; simp [initChunks]
  · intro i hi
    rw [hch]
    exact initChunks_getElem S N i hi
  · intro i ci hi hci
    rw [hch, initChunks_getElem S N i hi] at hci
    simp only [Option.some.injEq] at hci
    subst hci
    refine ⟨rfl, rfl, ?_⟩
    by_cases hi2 : i = N - 1
    · subst hi2
      simpa using hlastnn
    · simpa [hi2] using hc0
  · intro c0 hc
    rw [hch, initChunks_getElem S N 0 (by omega)] at hc
    simp only [Option.some.injEq] at hc
    subst hc
    simp
  · intro i ci cj hi hci hcj
    rw [hch, initChunks_getElem S N i (by omega)] at hci
    rw [hch, initChunks_getElem S N (i + 1) hi] at hcj
    simp only [Option.some.injEq] at hci hcj
    subst hci
    subst hcj
    have hine : i ≠ N - 1 := by omega
    simp only [hine, if_false]
    push_cast
    ring
  · intro cl hcl
    rw [hch, initChunks_getElem S N (N - 1) (by omega)] at hcl
    simp only [Option.some.injEq] at hcl
    subst hcl
    simp

/-- Witness for C6 at `S = 10`, `N = 4`: the fresh journal is persisted
and its last chunk is `(3, 6, 4, false)` — three chunks of `10 / 4 = 2`
bytes and a final one of 4 absorbing the remainder. -/
theorem loadOrInitState_fresh_partition_witness :
    (loadOrInitState none 10 4).2 = true ∧
    (loadOrInitState none 10 4).1.Chunks[3]? = some ⟨3, 6, 4, false⟩ := by
  have h := loadOrInitState_fresh_partition 10 4 (by decide) (by decide)
  refine ⟨h.1, ?_⟩
  rw [h.2.2.2.1 3 (by decide)]
  decide

/-- Claim C8: in sequential mode with a partial file strictly shorter
than the payload but non-empty, the receiver's resume offset is the
partial file's length, the `Ack` frame carries that length as an 8-byte
little-endian payload, and the already-present prefix is fed to the
rolling digest before the streamed data, so when the stream delivers the
remaining bytes the digest input is exactly the full payload. -/
theorem sequentialResume_spec (payload part : List Nat)
    (h0 : 0 < part.length) (hlt : part.length < payload.length)
    (hbound : (part.length : Int) < 2 ^ 63)
    (hpref : payload.take part.length = part)
    (ds : List (List Nat)) (hds : ds.flatten = payload.drop part.length) :
    resumeOffset "file" (payload.length : Int) (some part)
        = (part.length : Int) ∧
    ackFrameBytes (resumeOffset "file" (payload.length : Int) (some part))
        = encodeHeader TypeAck 8 ++ le64 part.length ∧
    (le64 part.length).length = 8 ∧
    sequentialHashedBytes part
        (resumeOffset "file" (payload.length : Int) (some part)).toNat ds
      = payload := by
  have hoff : resumeOffset "file" (payload.length : Int) (some part)
      = (part.length : Int) := by
    simp only [resumeOffset]
    rw [if_pos]
    exact ⟨by decide, by exact_mod_cast hlt, by exact_mod_cast h0⟩
  have hmodeq : (((part.length : Int)) % 2 ^ 64).toNat = part.length := by
    omega
  refine ⟨hoff, ?_, rfl, ?_⟩
  · rw [hoff]
    simp only [ackFrameBytes, le64Int]
    congr 2
  · rw [hoff]
    simp only [sequentialHashedBytes, Int.toNat_natCast, List.take_length,
      hds]
    have h2 := List.take_append_drop part.length payload
    rw [hpref] at h2
    exact h2

/-- Witness for C8: resuming payload `[1,2,3,4]` with partial `[1,2]`
hashes the prefix then the two streamed bytes, covering the whole
payload. -/
theorem sequentialResume_spec_witness :
    sequentialHashedBytes [1, 2]
        (resumeOffset "file" (([1, 2, 3, 4] : List Nat).length : Int)
          (some [1, 2])).toNat [[3], [4]]
      = [1, 2, 3, 4] :=
  (sequentialResume_spec [1, 2, 3, 4] [1, 2] (by decide) (by decide)
    (by decide) (by decide) [[3], [4]] (by decide)).2.2.2

end JEND

